import Mathlib

/-!
Verification development for the memcached file-logger extension
(`src/extensions/loggers/file_logger.c`).

The C code is shallowly embedded:

* Bytes are modelled as `Char`, byte strings as `List Char` (all the relevant
  C code treats the buffers as opaque byte runs; no arithmetic on bytes
  occurs).
* The static deduplication state `lastlog` (lines 103-112) becomes `Dedup`;
  its fixed 512-byte array is modelled as a total function `Nat → Char`
  which starts as all `NUL` (C globals are zero-initialised) and on which
  `memcpy` acts as a pointwise overlay.
* `add_log_entry` (lines 177-200) becomes a pure function returning the new
  dedup state together with the bytes it hands to `do_add_log_entry`
  (i.e. the bytes that enter the active log buffer, in order).
* The producer/flusher interaction on the two log buffers (lines 58-66,
  145-165, 352-406) is a labelled transition system `Step` over `Sys`:
  an `add` transition performs one `add_log_entry` call atomically under
  the mutex (it is only enabled when the `cb_cond_wait` backpressure loop
  of `do_add_log_entry` would not block indefinitely, i.e. when the bytes
  fit), and a `flush` transition performs one swap-and-drain cycle of the
  flusher thread (lines 365-382) atomically.  `do_add_log_entry`'s
  blocking check itself (line 147) is modelled separately by the function
  `do_add_log_entry`, which returns `none` exactly when the C code would
  make the caller wait on `space_cond`.  The worker's exit path frees both
  buffers' data segments (lines 403-405); `Sys` tracks this in a `freed`
  flag, and any later `memcpy` through the freed pointers is recorded in
  `danglingWrite` (undefined behavior in C) instead of being treated as an
  ordinary append.
* The write-retry loop of `flush_pending_io` (lines 335-341) is embedded
  with explicit fuel (`flush_write_loop`); the write primitive is an
  oracle giving the `ssize_t` return of `iops.write` for each call, as a
  function of the call number and of the remaining byte count.  The
  `size_t` subtraction `towrite -= nw` is modelled with its wrap-around
  semantics (`sizetSub`).
* File rotation (`open_logfile`, lines 304-316, and the cycle logic at
  lines 376-380) is embedded over an abstract starting filesystem
  `existing : Nat → Bool` (which sequence numbers are taken on disk when
  the logger starts); `findFree` is the `do { sprintf(..., next_id++); }
  while (access(fname, F_OK) == 0)` probe with explicit fuel.
* `logger_log` (lines 217-302) is embedded with the timestamp prefix
  abstracted as an optional input (`none` models `cb_get_timeofday`
  failing); everything from the severity part of the prefix on is modelled
  exactly.  The result records whether the clock was read, the lines
  written to stderr, the bytes handed to the buffered path and the new
  dedup state.
-/

namespace FileLogger

/-- Null byte; C globals (in particular `lastlog.buffer`) start zeroed. -/
def NUL : Char := Char.ofNat 0

/-- Size of `lastlog.buffer` (line 105): 512 bytes. -/
def LASTLOG_SIZE : Nat := 512

/-- Size of the formatting scratch buffer in `logger_log` (line 227). -/
def MAX_LINE : Nat := 2048

/-- The `lastlog` deduplication state (lines 103-112): the 512-byte array
holding the last message (modelled as a total byte function, overlay
semantics for `memcpy`), the repeat count, and the offset of the text after
the timestamp/severity part of the stored message. -/
structure Dedup where
  buf : Nat → Char
  count : Nat
  off : Nat

/-- The zero-initialised static `lastlog` state. -/
def initDedup : Dedup := ⟨fun _ => NUL, 0, 0⟩

/-- The comparison at line 182:
`memcmp(lastlog.buffer + lastlog.offset, msg + prefixlen, size - prefixlen) == 0`.
It compares exactly `size - prefixlen` bytes; note that it performs no
length check against the stored message. -/
def cmpWindow (d : Dedup) (msg : List Char) (plen : Nat) : Bool :=
  (List.range (msg.length - plen)).all
    (fun j => d.buf (d.off + j) == msg.getD (plen + j) NUL)

/-- The summary line formatted by `flush_last_log` (lines 169-172):
`"message repeated %u times\n"`. -/
def summaryLine (c : Nat) : List Char :=
  ("message repeated " ++ Nat.repr c ++ " times\n").data

/-- Bytes `flush_last_log` (lines 167-175) hands to `do_add_log_entry`:
the summary line when `lastlog.count > 1`, nothing otherwise.  Note that it
does not reset `lastlog.count`. -/
def flush_last_log (d : Dedup) : List Char :=
  if d.count > 1 then summaryLine d.count else []

/-- Effect of `memcpy(lastlog.buffer, msg, size)` (line 187) on the
512-byte array modelled as a total function: the first `msg.length` bytes
are replaced, the rest keep their old (possibly stale) contents. -/
def overlay (msg : List Char) (b : Nat → Char) : Nat → Char :=
  fun i => msg.getD i (b i)

/-- `add_log_entry` (lines 177-200), as a pure function from the dedup
state and one formatted record (with its prefix length) to the new dedup
state and the bytes handed to `do_add_log_entry`, in order.  The three
branches are the source's: record fits the comparison buffer and matches
(count bump, nothing appended); fits and differs (pending summary first,
then the record, which becomes the stored message); does not fit (pending
summary first, stored state cleared by writing a NUL at index 0, record
appended). -/
def add_log_entry (d : Dedup) (msg : List Char) (plen : Nat) : Dedup × List Char :=
  if msg.length < LASTLOG_SIZE then
    if cmpWindow d msg plen then
      (⟨d.buf, d.count + 1, d.off⟩, [])
    else
      (⟨overlay msg d.buf, 0, plen⟩, flush_last_log d ++ msg)
  else
    (⟨fun i => if i = 0 then NUL else d.buf i, 0, 0⟩, flush_last_log d ++ msg)

/-- Sequential processing of a list of records (each paired with its
prefix length) through `add_log_entry`, collecting all bytes handed to the
log buffer in order. -/
def foldRun (d : Dedup) : List (List Char × Nat) → Dedup × List Char
  | [] => (d, [])
  | (m, p) :: rest =>
    let r1 := add_log_entry d m p
    let r2 := foldRun r1.1 rest
    (r2.1, r1.2 ++ r2.2)

/-- The admission check of `do_add_log_entry` (lines 145-165): the caller
waits on `space_cond` while `buffers[currbuffer].offset + size >= buffersz`
and otherwise copies exactly `size` bytes at the current offset.  `none`
models the blocked caller (still waiting for the flusher to free space);
`some` is the completed append. -/
def do_add_log_entry (cap : Nat) (buf msg : List Char) : Option (List Char) :=
  if cap ≤ buf.length + msg.length then none else some (buf ++ msg)

/-! ### The producer/flusher transition system -/

/-- Shared state of the logger: dedup state, the two log buffers (their
first `offset` bytes; line 58-66), the active-buffer index, the `run` flag
(line 349), the flusher's file (open flag plus the bytes written to it so
far), and the liveness of the buffers' data segments: `freed` records that
the exiting worker has executed `free(buffers[0].data)` and
`free(buffers[1].data)` (lines 404-405), and `danglingWrite` records that
a `do_add_log_entry` `memcpy` (line 158) has since run through one of
those freed data pointers — undefined behavior in the C source, which the
embedding makes visible instead of treating as an ordinary append. -/
structure Sys where
  dedup : Dedup
  bufA : List Char
  bufB : List Char
  curr : Bool
  run : Bool
  fileOpen : Bool
  fileContent : List Char
  freed : Bool
  danglingWrite : Bool

/-- The buffer producers currently append into (`buffers[currbuffer]`). -/
def Sys.active (s : Sys) : List Char := if s.curr then s.bufB else s.bufA

/-- The other buffer (the flusher's drain target after a swap). -/
def Sys.passive (s : Sys) : List Char := if s.curr then s.bufA else s.bufB

/-- Replace the contents of the active buffer. -/
def Sys.setActive (s : Sys) (l : List Char) : Sys :=
  if s.curr then { s with bufB := l } else { s with bufA := l }

/-- One swap-and-drain cycle of the flusher (lines 365-380, rotation
aside): flip `currbuffer`, write the previously active buffer to the file
and reset its offset to zero. -/
def flushCycleF (s : Sys) : Sys :=
  { s.setActive [] with curr := !s.curr, fileContent := s.fileContent ++ s.active }

/-- State right after `memcached_extensions_initialize`: zeroed dedup
state, both buffers empty, buffer 0 active, worker running, file open and
empty, buffer data segments live. -/
def initSys : Sys := ⟨initDedup, [], [], false, true, true, [], false, false⟩

/-- Append bytes to the active buffer, as `do_add_log_entry`'s `memcpy`
(line 158) does once the backpressure wait has passed.  When the bytes are
nonempty and the worker has already freed the buffer data segments
(lines 404-405), the `memcpy` runs through a dangling pointer; the
embedding records this in `danglingWrite` rather than pretending the
append were an ordinary store. -/
def appendActive (s : Sys) (out : List Char) : Sys :=
  { s.setActive (s.active ++ out) with
      danglingWrite := s.danglingWrite || (s.freed && !out.isEmpty) }

/-- Target state of one producer `add_log_entry` call: the bytes the
dedup layer hands to `do_add_log_entry` are appended to the active buffer
and the dedup state is updated. -/
def addStep (s : Sys) (msg : List Char) (plen : Nat) : Sys :=
  { appendActive s (add_log_entry s.dedup msg plen).2 with
      dedup := (add_log_entry s.dedup msg plen).1 }

/-- Atomic transitions of the logger.  `add` is one producer call of
`add_log_entry` under the mutex; it is enabled once the backpressure wait
of `do_add_log_entry` has passed, i.e. when the appended bytes fit below
the capacity (or nothing is appended, in which case `do_add_log_entry` is
never called).  `flush` is one swap-and-drain cycle of the running flusher
thread. -/
inductive Step (cap : Nat) : Sys → Sys → Prop
  | add (s : Sys) (msg : List Char) (plen : Nat)
      (hroom : (add_log_entry s.dedup msg plen).2 = []
        ∨ s.active.length + (add_log_entry s.dedup msg plen).2.length < cap) :
      Step cap s (addStep s msg plen)
  | flush (s : Sys) (hrun : s.run = true) (hopen : s.fileOpen = true) :
      Step cap s (flushCycleF s)

/-- States reachable from the freshly initialised logger. -/
inductive Reach (cap : Nat) : Sys → Prop
  | refl : Reach cap initSys
  | step {s s' : Sys} : Reach cap s → Step cap s s' → Reach cap s'

/-! ### Shutdown -/

/-- Effect of the `flush_last_log()` call of `logger_shutdown` (line 440)
on the shared state: the pending summary bytes (if any) are appended to
the active buffer via `do_add_log_entry` — through a dangling data pointer
when the worker has already freed the buffers.  The dedup state itself is
not modified by `flush_last_log` (in particular `lastlog.count` keeps its
value). -/
def flushLastS (s : Sys) : Sys := appendActive s (flush_last_log s.dedup)

/-- The drain loop at lines 394-398:
`while (buffers[currbuffer].offset) { swap; flush_pending_io(...); }`,
with explicit fuel.  The loop runs with the mutex held, so no producer
interleaves; since a cycle empties the flushed buffer, two iterations
always suffice (`drainLoop_two` below). -/
def drainLoop : Nat → Sys → Sys
  | 0, s => s
  | k + 1, s => if s.active = [] then s else drainLoop k (flushCycleF s)

/-- The tail of `logger_thead_main` after `run` becomes false
(lines 393-405): if the file is open, drain the remaining buffers and
close the file; then, in both cases, free the filename argument and both
buffers' data segments (`free(arg); free(buffers[0].data);
free(buffers[1].data);`, lines 403-405).  The filename free has no
modelled effect; the buffer frees set `freed`, after which any further
`do_add_log_entry` `memcpy` is a use-after-free. -/
def workerExit (s : Sys) : Sys :=
  if s.fileOpen then { drainLoop 2 s with fileOpen := false, freed := true }
  else { s with freed := true }

/-- `logger_shutdown` (lines 437-449): append the pending dedup summary,
remember whether the worker was running, clear `run`, and if it was
running join the worker, which performs `workerExit`. -/
def logger_shutdown (s : Sys) : Sys :=
  if (flushLastS s).run then workerExit { flushLastS s with run := false }
  else { flushLastS s with run := false }

/-! ### File rotation -/

/-- State owned by the flusher thread for rotation: the sequence number of
the currently open file, the static `next_id` counter of `open_logfile`
(line 305), the byte count `currsize` since the file was opened
(line 354), and the contents written to each sequence number so far. -/
structure RotSt where
  fileId : Nat
  nextId : Nat
  currsize : Nat
  files : Nat → List Char

/-- The probe loop of `open_logfile` (lines 308-310): starting from
`next_id`, skip sequence numbers whose file already exists on disk, with
explicit fuel. -/
def findFree (existing : Nat → Bool) : Nat → Nat → Option Nat
  | 0, _ => none
  | k + 1, i => if existing i then findFree existing k (i + 1) else some i

/-- `open_logfile` (lines 304-316): returns the chosen sequence number
together with the new value of the static `next_id` (one past the chosen
number, since the loop body increments `next_id` once more than it
probes). -/
def open_logfile (existing : Nat → Bool) (fuel nextId : Nat) : Option (Nat × Nat) :=
  match findFree existing fuel nextId with
  | some id => some (id, id + 1)
  | none => none

/-- One flush cycle of the flusher as far as the file is concerned
(lines 376-380): append the drained bytes to the current file, add them to
`currsize`, and if `currsize > cyclesz` reopen: close the current file and
open a fresh sequence number, resetting `currsize` to zero.  `none` models
`open_logfile` failing to find a free name within the given fuel. -/
def flushCycleRot (cyclesz : Nat) (existing : Nat → Bool) (fuel : Nat)
    (st : RotSt) (bytes : List Char) : Option RotSt :=
  let files2 := fun i => if i = st.fileId then st.files i ++ bytes else st.files i
  let cs := st.currsize + bytes.length
  if cs > cyclesz then
    match open_logfile existing fuel st.nextId with
    | some (id, nid) => some ⟨id, nid, 0, files2⟩
    | none => none
  else
    some ⟨st.fileId, st.nextId, cs, files2⟩

/-! ### The write-retry loop of `flush_pending_io` -/

/-- The `size_t` subtraction `towrite -= nw` of line 339 (with
`0 < nw`): two's-complement wrap-around at `2 ^ 64`. -/
def sizetSub (t : Nat) (nw : Int) : Nat := (((t : Int) - nw) % (2 ^ 64 : Int)).toNat

/-- The retry loop of `flush_pending_io` (lines 335-341):
`while (towrite > 0) { nw = write(ptr, towrite); if (nw > 0) { advance } }`,
with explicit fuel counting loop iterations.  The oracle gives the return
value of the `iops.write` call as a function of the call number and the
remaining byte count; a return that is zero or negative leaves the
remaining count unchanged (the loop body has no error exit).  `some ()` is
loop exit with all bytes written; `none` means the loop was still running
when the fuel ran out. -/
def flush_write_loop (oracle : Nat → Nat → Int) : Nat → Nat → Nat → Option Unit
  | 0, _, _ => none
  | f + 1, i, t =>
    if t = 0 then some ()
    else if 0 < oracle i t then flush_write_loop oracle f (i + 1) (sizetSub t (oracle i t))
    else flush_write_loop oracle f (i + 1) t

/-! ### `logger_log` -/

/-- `severity2string` (lines 202-215).  The numeric values of the
`EXTENSION_LOG_LEVEL` enumerators come from the external
`memcached/extension.h` header (not part of this repository):
`DETAIL = 0 < DEBUG = 1 < INFO = 2 < WARNING = 3`. -/
def severity2string (sev : Nat) : List Char :=
  if sev = 3 then "WARNING".data
  else if sev = 2 then "INFO".data
  else if sev = 1 then "DEBUG".data
  else if sev = 0 then "DETAIL".data
  else "????".data

/-- The severity part of the record prefix (lines 270-276):
`" %s: "` of `severity2string` when pretty-printing, `" %u: "` of the
numeric severity otherwise. -/
def sevPart (pretty : Bool) (sev : Nat) : List Char :=
  if pretty then (' ' :: severity2string sev) ++ ": ".data
  else (' ' :: (Nat.repr sev).data) ++ ": ".data

/-- The newline normalisation at lines 285-288: append one `'\n'` exactly
when the formatted record does not already end in one. -/
def renderRecord (pfx msg : List Char) : List Char :=
  if (pfx ++ msg).getLast? ≠ some '\n' then pfx ++ msg ++ ['\n'] else pfx ++ msg

/-- The diagnostic printed at line 299 when a record is too large. -/
def dropDiag : List Char := "Log message dropped... too big\n".data

/-- The diagnostic printed at line 266 when `cb_get_timeofday` fails (the
embedding keeps the fixed text and drops the `strerror` suffix, which no
claim mentions). -/
def timeFailDiag : List Char := "gettimeofday failed\n".data

/-- Observable effect of one `logger_log` call: whether the clock was
read, the lines written to stderr (in order), the bytes handed to the
buffered path, and the dedup state afterwards. -/
structure LogEffect where
  usedClock : Bool
  stderrLines : List (List Char)
  appended : List Char
  dedup : Dedup

/-- `logger_log` (lines 217-302).  `clv` is `current_log_level`, `olv` is
`output_level`; `clock` is the timestamp part of the prefix produced by
lines 234-268 (`none` when `cb_get_timeofday` fails).  The check
`len < avail` uses `avail = sizeof(buffer) - 1 - prefixlen` with `len` the
full (untruncated) length `vsnprintf` reports for the message body. -/
def logger_log (clv olv : Nat) (pretty : Bool) (clock : Option (List Char))
    (sev : Nat) (msg : List Char) (d : Dedup) : LogEffect :=
  if clv ≤ sev ∨ olv ≤ sev then
    match clock with
    | none => ⟨true, [timeFailDiag], [], d⟩
    | some ts =>
      let pfx := ts ++ sevPart pretty sev
      if msg.length < (MAX_LINE - 1) - pfx.length then
        let line := renderRecord pfx msg
        let mirror := if olv ≤ sev then [line] else []
        if clv ≤ sev then
          let r := add_log_entry d line pfx.length
          ⟨true, mirror, r.2, r.1⟩
        else ⟨true, mirror, [], d⟩
      else ⟨true, [dropDiag], [], d⟩
  else ⟨false, [], [], d⟩

/-! ## Claim theorems -/

/-- C10: a `logger_log` call whose severity is below both the
record-severity threshold (`current_log_level`) and the output threshold
(`output_level`) is a complete no-op: the clock is not read, nothing is
written to stderr, nothing is handed to the log buffers, and the dedup
state is unchanged. -/
theorem C10_below_thresholds_noop (clv olv : Nat) (pretty : Bool)
    (clock : Option (List Char)) (sev : Nat) (msg : List Char) (d : Dedup)
    (h1 : sev < clv) (h2 : sev < olv) :
    logger_log clv olv pretty clock sev msg d = ⟨false, [], [], d⟩ := by
  unfold logger_log
  rw [if_neg (by omega)]

theorem C10_witness :
    (0 < 3 ∧ 0 < 3)
    ∧ logger_log 3 3 false none 0 ("m".data) initDedup = ⟨false, [], [], initDedup⟩ :=
  ⟨by decide,
   C10_below_thresholds_noop 3 3 false none 0 ("m".data) initDedup (by decide) (by decide)⟩

/-- C9 (amended): every record produced by the formatter ends in at least
one newline: exactly one `'\n'` is appended when the formatted record does
not already end in one, and nothing is appended (so existing trailing
newlines, possibly several, are kept) when it does. -/
theorem C9_trailing_newline (pfx msg : List Char) :
    (renderRecord pfx msg).getLast? = some '\n'
    ∧ ((pfx ++ msg).getLast? ≠ some '\n' → renderRecord pfx msg = pfx ++ msg ++ ['\n'])
    ∧ ((pfx ++ msg).getLast? = some '\n' → renderRecord pfx msg = pfx ++ msg) := by
  by_cases h : (pfx ++ msg).getLast? = some '\n'
  · have hr : renderRecord pfx msg = pfx ++ msg := by
      unfold renderRecord; rw [if_neg (not_not_intro h)]
    exact ⟨hr ▸ h, fun hn => absurd h hn, fun _ => hr⟩
  · have hr : renderRecord pfx msg = pfx ++ msg ++ ['\n'] := by
      unfold renderRecord; rw [if_pos h]
    refine ⟨?_, fun _ => hr, fun he => absurd he h⟩
    rw [hr]
    exact List.getLast?_concat _

/-- C9 counterexample: the claim demands that every appended record end in
exactly one newline, but a message whose formatted body already ends in
two newlines is appended unchanged: here the bytes handed to the buffered
path end in `'\n'` and so does their `dropLast`. -/
theorem C9_counterexample :
    (logger_log 0 0 false (some ("T".data)) 3 ("a\n\n".data) initDedup).appended
        = "T 3: a\n\n".data
    ∧ ("T 3: a\n\n".data).getLast? = some '\n'
    ∧ ("T 3: a\n\n".data).dropLast.getLast? = some '\n' := by
  decide

/-- C8: every `logger_log` call with severity at or above the output
threshold, a successful timestamp read and a record that fits the line
limit writes the formatted record to stderr exactly once — for every
dedup state (so also for occurrences the buffered path collapses) and for
every record-severity threshold (so also for records that are never
buffered). -/
theorem C8_console_mirror (clv olv : Nat) (pretty : Bool) (ts msg : List Char) (sev : Nat)
    (hout : olv ≤ sev)
    (hfit : msg.length < (MAX_LINE - 1) - (ts ++ sevPart pretty sev).length) :
    ∀ d : Dedup, (logger_log clv olv pretty (some ts) sev msg d).stderrLines
      = [renderRecord (ts ++ sevPart pretty sev) msg] := by
  intro d
  unfold logger_log
  rw [if_pos (Or.inr hout)]
  simp only [hfit, if_true, if_pos hout]
  by_cases hc : clv ≤ sev <;> simp [hc]

theorem C8_witness :
    (0 ≤ 0 ∧ ("a".data).length < (MAX_LINE - 1) - ("T".data ++ sevPart false 0).length)
    ∧ (logger_log 5 0 false (some ("T".data)) 0 ("a".data) initDedup).stderrLines
        = [renderRecord ("T".data ++ sevPart false 0) ("a".data)] :=
  ⟨⟨by decide, by decide⟩,
   C8_console_mirror 5 0 false ("T".data) ("a".data) 0 (by decide) (by decide) initDedup⟩

/-- C6: a `logger_log` call that gets past the severity gate and the
timestamp read, but whose rendered record (prefix plus formatted message)
would exceed the 2048-byte line buffer, hands nothing to the log buffers,
leaves the dedup state unchanged, and writes the drop diagnostic to
stderr. -/
theorem C6_oversize_dropped (clv olv : Nat) (pretty : Bool) (ts msg : List Char)
    (sev : Nat) (d : Dedup)
    (hsev : clv ≤ sev ∨ olv ≤ sev)
    (_hpfx : (ts ++ sevPart pretty sev).length ≤ MAX_LINE - 1)
    (hbig : MAX_LINE < (ts ++ sevPart pretty sev).length + msg.length) :
    logger_log clv olv pretty (some ts) sev msg d = ⟨true, [dropDiag], [], d⟩ := by
  have hM : MAX_LINE = 2048 := rfl
  simp only [logger_log]
  rw [if_pos hsev, if_neg (by omega)]

theorem C6_witness :
    (("T".data ++ sevPart false 3).length ≤ MAX_LINE - 1
      ∧ MAX_LINE < ("T".data ++ sevPart false 3).length + (List.replicate 2049 'a').length)
    ∧ logger_log 0 0 false (some ("T".data)) 3 (List.replicate 2049 'a') initDedup
        = ⟨true, [dropDiag], [], initDedup⟩ :=
  ⟨⟨by decide, by rw [List.length_replicate]; decide⟩,
   C6_oversize_dropped 0 0 false ("T".data) (List.replicate 2049 'a') 3 initDedup
     (Or.inl (by decide)) (by decide) (by rw [List.length_replicate]; decide)⟩

/-- Helper: in the conforming regime (positive return of at most the
remaining count, count below `2 ^ 64`) the `size_t` subtraction is plain
subtraction. -/
theorem sizetSub_eq (t : Nat) (nw : Int) (h0 : 0 < nw) (hle : nw ≤ (t : Int))
    (hb : t < 2 ^ 64) : sizetSub t nw = t - nw.toNat := by
  have h64n : (2 : Nat) ^ 64 = 18446744073709551616 := by norm_num
  have h64 : (2 : Int) ^ 64 = 18446744073709551616 := by norm_num
  unfold sizetSub
  rw [Int.emod_eq_of_lt (by omega) (by omega)]
  omega

/-- Helper: the retry loop finishes (with all bytes written) within
`t + 1` iterations whenever every write call makes positive progress of at
most the remaining count. -/
theorem flush_write_loop_total (oracle : Nat → Nat → Int)
    (hprog : ∀ i t, 0 < t → 0 < oracle i t ∧ oracle i t ≤ (t : Int)) :
    ∀ f t i, t ≤ f → t < 2 ^ 64 → flush_write_loop oracle (f + 1) i t = some () := by
  intro f
  induction f with
  | zero =>
    intro t i ht _
    have h0 : t = 0 := by omega
    simp [flush_write_loop, h0]
  | succ f ih =>
    intro t i ht hb
    by_cases h0 : t = 0
    · simp [flush_write_loop, h0]
    · have hp := hprog i t (Nat.pos_of_ne_zero h0)
      have hsub : sizetSub t (oracle i t) = t - (oracle i t).toNat :=
        sizetSub_eq t (oracle i t) hp.1 hp.2 hb
      have h1 : 1 ≤ (oracle i t).toNat := by omega
      have h2 : (oracle i t).toNat ≤ t := by omega
      simp only [flush_write_loop]
      rw [if_neg h0, if_pos hp.1, hsub]
      exact ih (t - (oracle i t).toNat) (i + 1) (by omega) (by omega)

/-- C5 (amended): the retry loop of `flush_pending_io` retries zero and
negative (fatal-error) returns in place on the unchanged remaining byte
count; it terminates only by writing all buffered bytes — in particular,
if every write call makes positive progress bounded by the remaining
count, the loop exits within `towrite + 1` calls with everything written.
(It does not stop on a fatal error; see the counterexample.) -/
theorem C5_write_retry (oracle : Nat → Nat → Int) (towrite start : Nat)
    (hprog : ∀ i t, 0 < t → 0 < oracle i t ∧ oracle i t ≤ (t : Int))
    (hbound : towrite < 2 ^ 64) :
    flush_write_loop oracle (towrite + 1) start towrite = some ()
    ∧ (∀ orc2 : Nat → Nat → Int, ∀ f i t : Nat, 0 < t → orc2 i t ≤ 0 →
        flush_write_loop orc2 (f + 1) i t = flush_write_loop orc2 f (i + 1) t) := by
  constructor
  · exact flush_write_loop_total oracle hprog towrite towrite start le_rfl hbound
  · intro orc2 f i t ht hle
    simp only [flush_write_loop]
    rw [if_neg (by omega), if_neg (by omega)]

theorem C5_witness :
    ((3 : Nat) < 2 ^ 64)
    ∧ flush_write_loop (fun _ t => (t : Int)) (3 + 1) 0 3 = some () :=
  ⟨by norm_num,
   (C5_write_retry (fun _ t => (t : Int)) 3 0
     (fun _ t ht => ⟨by simpa using ht, by simp⟩) (by norm_num)).1⟩

/-- Helper for the C5 counterexample: with a write primitive that always
returns `-1`, the remaining count never changes, so the loop body runs the
fuel out no matter how large the fuel is. -/
theorem flush_write_loop_stuck :
    ∀ f i, flush_write_loop (fun _ _ => (-1 : Int)) f i 1 = none := by
  intro f
  induction f with
  | zero => intro i; rfl
  | succ f ih =>
    intro i
    simp only [flush_write_loop]
    rw [if_neg one_ne_zero, if_neg (by norm_num)]
    exact ih (i + 1)

/-- C5 counterexample: the claim says the retry loop terminates when the
write primitive reports a fatal error (a negative return).  It does not:
for a single pending byte and a primitive that always returns `-1`, no
number of loop iterations ever reaches the loop exit. -/
theorem C5_counterexample :
    ¬ ∃ f : Nat, flush_write_loop (fun _ _ => (-1 : Int)) f 0 1 = some () := by
  rintro ⟨f, hf⟩
  rw [flush_write_loop_stuck f 0] at hf
  exact Option.noConfusion hf

/-- Helper: the `open_logfile` probe loop finds, within sufficient fuel, a
sequence number that is free on disk and at least the starting
`next_id`. -/
theorem findFree_free (existing : Nat → Bool) :
    ∀ k start, existing (start + k) = false →
      ∃ id, findFree existing (k + 1) start = some id
        ∧ existing id = false ∧ start ≤ id := by
  intro k
  induction k with
  | zero =>
    intro start h
    rw [Nat.add_zero] at h
    exact ⟨start, by simp [findFree, h], h, le_rfl⟩
  | succ k ih =>
    intro start h
    have step : findFree existing (k + 1 + 1) start
        = if existing start then findFree existing (k + 1) (start + 1) else some start := rfl
    by_cases hs : existing start = true
    · obtain ⟨id, h1, h2, h3⟩ := ih (start + 1)
        (by rw [show start + 1 + k = start + (k + 1) from by omega]; exact h)
      exact ⟨id, by rw [step, if_pos hs]; exact h1, h2, by omega⟩
    · have hs' : existing start = false := by simpa using hs
      exact ⟨start, by rw [step, if_neg (by simp [hs'])], hs', le_rfl⟩

/-- C4: when a flush cycle pushes the byte count over the rotation
threshold, the flusher rotates: the new file's sequence number is strictly
larger than the old one, at least the probe counter (so no name the logger
used before), free on the starting filesystem (so no pre-existing file is
reused), the byte counter restarts at zero, the crossing cycle's bytes are
still in the old file, and any later cycle appends to the new file and
leaves the old file untouched. -/
theorem C4_rotation (cyclesz k : Nat) (existing : Nat → Bool) (st : RotSt)
    (bytes : List Char)
    (hcross : cyclesz < st.currsize + bytes.length)
    (hfree : existing (st.nextId + k) = false)
    (hinv : st.fileId < st.nextId) :
    ∃ st', flushCycleRot cyclesz existing (k + 1) st bytes = some st'
      ∧ existing st'.fileId = false
      ∧ st.fileId < st'.fileId
      ∧ st.nextId ≤ st'.fileId
      ∧ st'.nextId = st'.fileId + 1
      ∧ st'.currsize = 0
      ∧ st'.files st.fileId = st.files st.fileId ++ bytes
      ∧ (∀ bytes2 st'', flushCycleRot cyclesz existing (k + 1) st' bytes2 = some st'' →
          st''.files st.fileId = st'.files st.fileId
          ∧ st''.files st'.fileId = st'.files st'.fileId ++ bytes2) := by
  obtain ⟨id, h1, h2, h3⟩ := findFree_free existing k st.nextId hfree
  have hne : st.fileId ≠ id := by omega
  refine ⟨⟨id, id + 1, 0,
      fun i => if i = st.fileId then st.files i ++ bytes else st.files i⟩,
    ?_, h2, by show st.fileId < id; omega, h3, rfl, rfl, by simp, ?_⟩
  · simp only [flushCycleRot, open_logfile]
    rw [if_pos hcross, h1]
  · intro bytes2 st'' h
    simp only [flushCycleRot, open_logfile] at h
    split at h
    · cases hop : findFree existing (k + 1) (id + 1) with
      | none => rw [hop] at h; exact absurd h (by simp)
      | some id2 =>
        rw [hop] at h
        simp only [Option.some.injEq] at h
        subst h
        constructor
        · simp [if_neg hne, if_neg (Ne.symm hne)]
        · simp
    · simp only [Option.some.injEq] at h
      subst h
      constructor
      · simp [if_neg hne, if_neg (Ne.symm hne)]
      · simp

theorem C4_witness :
    ((10 : Nat) < 0 + (List.replicate 11 'a').length ∧ (0 : Nat) < 1)
    ∧ ∃ st', flushCycleRot 10 (fun _ => false) (0 + 1)
        (⟨0, 1, 0, fun _ => []⟩ : RotSt) (List.replicate 11 'a') = some st'
        ∧ (0 : Nat) < st'.fileId ∧ st'.currsize = 0 := by
  refine ⟨⟨by simp, by decide⟩, ?_⟩
  obtain ⟨st', h1, _, h3, _, _, h6, _, _⟩ :=
    C4_rotation 10 0 (fun _ => false) (⟨0, 1, 0, fun _ => []⟩ : RotSt)
      (List.replicate 11 'a') (by simp) (by decide) (by decide)
  exact ⟨st', h1, h3, h6⟩

/-- Helper: `cmpWindow` succeeds exactly when the compared byte ranges
agree pointwise. -/
theorem cmpWindow_eq_true_iff (d : Dedup) (msg : List Char) (plen : Nat) :
    cmpWindow d msg plen = true
    ↔ ∀ j < msg.length - plen, d.buf (d.off + j) = msg.getD (plen + j) NUL := by
  simp [cmpWindow, List.all_eq_true, List.mem_range]

/-- C7 (amended): a record that fits the comparison buffer increments the
repeat count and appends nothing if and only if the `size - prefixlen`
bytes of its body agree pointwise with the stored buffer read from the
stored offset — a prefix comparison with no length check (the claim's
"equal lengths included" is refuted by the counterexample); otherwise the
pending summary and the record are appended and the record becomes the
stored last message. -/
theorem C7_dedup_compare (d : Dedup) (msg : List Char) (plen : Nat)
    (h : msg.length < LASTLOG_SIZE) :
    (add_log_entry d msg plen = (⟨d.buf, d.count + 1, d.off⟩, [])
      ↔ ∀ j < msg.length - plen, d.buf (d.off + j) = msg.getD (plen + j) NUL)
    ∧ (¬ (∀ j < msg.length - plen, d.buf (d.off + j) = msg.getD (plen + j) NUL) →
        add_log_entry d msg plen
          = (⟨overlay msg d.buf, 0, plen⟩, flush_last_log d ++ msg)) := by
  have hb := cmpWindow_eq_true_iff d msg plen
  by_cases hc : cmpWindow d msg plen = true
  · have hp := hb.mp hc
    have heq : add_log_entry d msg plen = (⟨d.buf, d.count + 1, d.off⟩, []) := by
      unfold add_log_entry; rw [if_pos h, if_pos hc]
    exact ⟨⟨fun _ => hp, fun _ => heq⟩, fun hn => absurd hp hn⟩
  · have hp : ¬ ∀ j < msg.length - plen, d.buf (d.off + j) = msg.getD (plen + j) NUL :=
      fun hall => hc (hb.mpr hall)
    have heq : add_log_entry d msg plen
        = (⟨overlay msg d.buf, 0, plen⟩, flush_last_log d ++ msg) := by
      unfold add_log_entry; rw [if_pos h, if_neg hc]
    refine ⟨⟨fun he => ?_, fun hall => absurd hall hp⟩, fun _ => heq⟩
    rw [heq] at he
    have h0 : (0 : Nat) = d.count + 1 := congrArg (fun r => r.1.count) he
    omega

theorem C7_witness :
    (("A: x\n".data).length < LASTLOG_SIZE)
    ∧ (add_log_entry initDedup ("A: x\n".data) 3
          = (⟨initDedup.buf, initDedup.count + 1, initDedup.off⟩, [])
        ↔ ∀ j < ("A: x\n".data).length - 3,
            initDedup.buf (initDedup.off + j) = ("A: x\n".data).getD (3 + j) NUL) :=
  ⟨by decide, (C7_dedup_compare initDedup ("A: x\n".data) 3 (by decide)).1⟩

/-- The dedup state after the record `"P: a\nb\n"` (prefix length 3, body
`"a\nb\n"`) has been stored as the last message. -/
def c7Stored : Dedup := (add_log_entry initDedup ("P: a\nb\n".data) 3).1

/-- C7 counterexample: the claim requires the count to be incremented only
when the new body equals the stored body with equal lengths.  With
`"P: a\nb\n"` stored (body `"a\nb\n"`), the new record `"Q: a\n"` (body
`"a\n"`, a strict prefix of the stored body) still increments the count
and appends nothing, although the bodies differ — already in length:
the `memcmp` covers only the new record's `size - prefixlen` bytes. -/
theorem C7_counterexample :
    (add_log_entry c7Stored ("Q: a\n".data) 3).1.count = c7Stored.count + 1
    ∧ (add_log_entry c7Stored ("Q: a\n".data) 3).2 = []
    ∧ ("P: a\nb\n".data).drop 3 ≠ ("Q: a\n".data).drop 3
    ∧ (("P: a\nb\n".data).drop 3).length ≠ (("Q: a\n".data).drop 3).length := by
  decide

/-- Helper: reading an appended list at an offset past the first part
lands in the second part. -/
theorem getD_append_add (p b : List Char) (j : Nat) (c : Char) (hj : j < b.length) :
    (p ++ b).getD (p.length + j) c = b[j] := by
  rw [List.getD_append_right p b c (p.length + j) (Nat.le_add_right _ _),
    Nat.add_sub_cancel_left]
  exact List.getD_eq_getElem b c hj

/-- Helper: once a record `p1 ++ b` is stored, any record `p ++ b` with
the same body passes the `memcmp` of line 182, whatever its own prefix
is. -/
theorem cmpWindow_stored (p1 b p : List Char) (buf0 : Nat → Char) (k : Nat) :
    cmpWindow ⟨overlay (p1 ++ b) buf0, k, p1.length⟩ (p ++ b) p.length = true := by
  rw [cmpWindow_eq_true_iff]
  intro j hj
  have hjb : j < b.length := by
    have := List.length_append p b
    omega
  show overlay (p1 ++ b) buf0 (p1.length + j) = (p ++ b).getD (p.length + j) NUL
  unfold overlay
  rw [getD_append_add p1 b j _ hjb, getD_append_add p b j NUL hjb]

/-- Helper: after a record `p1 ++ b` has been stored, a further run of
records with the same body `b` (and arbitrary prefixes) only increments
the repeat count: nothing is appended and the stored message stays. -/
theorem foldRun_repeats (p1 b : List Char) (buf0 : Nat → Char) :
    ∀ (ps : List (List Char)) (k : Nat),
      (∀ p ∈ ps, (p ++ b).length < LASTLOG_SIZE) →
      foldRun ⟨overlay (p1 ++ b) buf0, k, p1.length⟩ (ps.map fun p => (p ++ b, p.length))
        = (⟨overlay (p1 ++ b) buf0, k + ps.length, p1.length⟩, []) := by
  intro ps
  induction ps with
  | nil => intro k _; simp [foldRun]
  | cons p ps ih =>
    intro k hsz
    have hp : (p ++ b).length < LASTLOG_SIZE := hsz p (List.mem_cons_self p ps)
    have hadd : add_log_entry ⟨overlay (p1 ++ b) buf0, k, p1.length⟩ (p ++ b) p.length
        = (⟨overlay (p1 ++ b) buf0, k + 1, p1.length⟩, []) := by
      unfold add_log_entry
      rw [if_pos hp, if_pos (cmpWindow_stored p1 b p buf0 k)]
    simp only [List.map_cons, foldRun, hadd]
    rw [ih (k + 1) (fun q hq => hsz q (List.mem_cons_of_mem p hq))]
    simp [Nat.add_assoc, Nat.add_comm 1 ps.length]

/-- C1 (amended): a run of `n = ps.length + 1` consecutive records with
the same body `b` after their (arbitrary) prefixes, entering a dedup state
with no pending summary and a non-matching stored message, followed by a
flush of the pending summary, yields exactly one copy of the first record
followed by one `"message repeated n-1 times"` summary line when
`n - 1 > 1` (i.e. `n > 2`), and no summary line when `n ≤ 2` — for
`n = 2` the single repetition is dropped without a summary (this is where
the claim's "summary for every n > 1" fails; see the counterexample). -/
theorem C1_dedup_run_flush (d0 : Dedup) (b p1 : List Char) (ps : List (List Char))
    (hcount : d0.count ≤ 1)
    (hsz1 : (p1 ++ b).length < LASTLOG_SIZE)
    (hsz : ∀ p ∈ ps, (p ++ b).length < LASTLOG_SIZE)
    (hdiff : cmpWindow d0 (p1 ++ b) p1.length = false) :
    (foldRun d0 ((p1 :: ps).map fun p => (p ++ b, p.length))).2
        ++ flush_last_log (foldRun d0 ((p1 :: ps).map fun p => (p ++ b, p.length))).1
      = (p1 ++ b) ++ (if 1 < ps.length then summaryLine ps.length else [])
    ∧ (foldRun d0 ((p1 :: ps).map fun p => (p ++ b, p.length))).1.count = ps.length := by
  have hadd : add_log_entry d0 (p1 ++ b) p1.length
      = (⟨overlay (p1 ++ b) d0.buf, 0, p1.length⟩, flush_last_log d0 ++ (p1 ++ b)) := by
    unfold add_log_entry
    rw [if_pos hsz1, if_neg (by simp [hdiff])]
  have hfl0 : flush_last_log d0 = [] := by
    unfold flush_last_log; rw [if_neg (by omega)]
  have hrep := foldRun_repeats p1 b d0.buf ps 0 hsz
  simp only [List.map_cons, foldRun, hadd, hrep, hfl0]
  constructor
  · unfold flush_last_log summaryLine
    simp
  · simp

theorem C1_witness :
    (initDedup.count ≤ 1
      ∧ cmpWindow initDedup ("A ".data ++ "x\n".data) ("A ".data).length = false)
    ∧ (foldRun initDedup ((["A ".data, "B ".data, "C ".data]).map
          fun p => (p ++ "x\n".data, p.length))).2
        ++ flush_last_log (foldRun initDedup ((["A ".data, "B ".data, "C ".data]).map
          fun p => (p ++ "x\n".data, p.length))).1
      = ("A ".data ++ "x\n".data)
          ++ (if 1 < (["B ".data, "C ".data] : List (List Char)).length
              then summaryLine (["B ".data, "C ".data] : List (List Char)).length else []) :=
  ⟨⟨by decide, by decide⟩,
   (C1_dedup_run_flush initDedup ("x\n".data) ("A ".data) ["B ".data, "C ".data]
     (by decide) (by decide) (by decide) (by decide)).1⟩

/-- C1 counterexample: two identical records (`n = 2`) followed by a
flush.  The claim demands one copy plus a `"message repeated 1 times"`
summary line; the code emits only the single copy and no summary,
because `flush_last_log` emits a summary only when the count exceeds 1. -/
theorem C1_counterexample :
    (foldRun initDedup [("T: x\n".data, 3), ("T: x\n".data, 3)]).2
        ++ flush_last_log (foldRun initDedup [("T: x\n".data, 3), ("T: x\n".data, 3)]).1
      = "T: x\n".data
    ∧ (foldRun initDedup [("T: x\n".data, 3), ("T: x\n".data, 3)]).2
        ++ flush_last_log (foldRun initDedup [("T: x\n".data, 3), ("T: x\n".data, 3)]).1
      ≠ "T: x\n".data ++ summaryLine 1 := by
  exact ⟨by decide, by decide⟩

/-! ### Projection lemmas for the transition system -/

theorem setActive_active (s : Sys) (l : List Char) : (s.setActive l).active = l := by
  cases hc : s.curr <;> simp [Sys.setActive, Sys.active, hc]

theorem setActive_passive (s : Sys) (l : List Char) : (s.setActive l).passive = s.passive := by
  cases hc : s.curr <;> simp [Sys.setActive, Sys.passive, hc]

theorem appendActive_active (s : Sys) (out : List Char) :
    (appendActive s out).active = s.active ++ out := by
  cases hc : s.curr <;> simp [appendActive, Sys.setActive, Sys.active, hc]

theorem appendActive_passive (s : Sys) (out : List Char) :
    (appendActive s out).passive = s.passive := by
  cases hc : s.curr <;> simp [appendActive, Sys.setActive, Sys.passive, hc]

theorem appendActive_fileContent (s : Sys) (out : List Char) :
    (appendActive s out).fileContent = s.fileContent := by
  cases hc : s.curr <;> simp [appendActive, Sys.setActive, hc]

theorem appendActive_run (s : Sys) (out : List Char) :
    (appendActive s out).run = s.run := by
  cases hc : s.curr <;> simp [appendActive, Sys.setActive, hc]

theorem appendActive_fileOpen (s : Sys) (out : List Char) :
    (appendActive s out).fileOpen = s.fileOpen := by
  cases hc : s.curr <;> simp [appendActive, Sys.setActive, hc]

theorem appendActive_dedup (s : Sys) (out : List Char) :
    (appendActive s out).dedup = s.dedup := by
  cases hc : s.curr <;> simp [appendActive, Sys.setActive, hc]

theorem appendActive_freed (s : Sys) (out : List Char) :
    (appendActive s out).freed = s.freed := by
  cases hc : s.curr <;> simp [appendActive, Sys.setActive, hc]

theorem appendActive_danglingWrite (s : Sys) (out : List Char) :
    (appendActive s out).danglingWrite
      = (s.danglingWrite || (s.freed && !out.isEmpty)) := by
  cases hc : s.curr <;> simp [appendActive, Sys.setActive, hc]

theorem addStep_passive (s : Sys) (msg : List Char) (plen : Nat) :
    (addStep s msg plen).passive = s.passive :=
  appendActive_passive s _

theorem addStep_active (s : Sys) (msg : List Char) (plen : Nat) :
    (addStep s msg plen).active = s.active ++ (add_log_entry s.dedup msg plen).2 :=
  appendActive_active s _

theorem addStep_fileContent (s : Sys) (msg : List Char) (plen : Nat) :
    (addStep s msg plen).fileContent = s.fileContent :=
  appendActive_fileContent s _

theorem addStep_freed (s : Sys) (msg : List Char) (plen : Nat) :
    (addStep s msg plen).freed = s.freed :=
  appendActive_freed s _

theorem addStep_danglingWrite (s : Sys) (msg : List Char) (plen : Nat) :
    (addStep s msg plen).danglingWrite
      = (s.danglingWrite || (s.freed && !(add_log_entry s.dedup msg plen).2.isEmpty)) :=
  appendActive_danglingWrite s _

theorem flushCycleF_active (s : Sys) : (flushCycleF s).active = s.passive := by
  cases hc : s.curr <;> simp [flushCycleF, Sys.setActive, Sys.active, Sys.passive, hc]

theorem flushCycleF_passive (s : Sys) : (flushCycleF s).passive = [] := by
  cases hc : s.curr <;> simp [flushCycleF, Sys.setActive, Sys.passive, hc]

theorem flushCycleF_fileContent (s : Sys) :
    (flushCycleF s).fileContent = s.fileContent ++ s.active := by
  cases hc : s.curr <;> simp [flushCycleF, Sys.setActive, hc]

theorem flushCycleF_run (s : Sys) : (flushCycleF s).run = s.run := by
  cases hc : s.curr <;> simp [flushCycleF, Sys.setActive, hc]

theorem flushCycleF_fileOpen (s : Sys) : (flushCycleF s).fileOpen = s.fileOpen := by
  cases hc : s.curr <;> simp [flushCycleF, Sys.setActive, hc]

theorem flushCycleF_dedup (s : Sys) : (flushCycleF s).dedup = s.dedup := by
  cases hc : s.curr <;> simp [flushCycleF, Sys.setActive, hc]

theorem flushCycleF_freed (s : Sys) : (flushCycleF s).freed = s.freed := by
  cases hc : s.curr <;> simp [flushCycleF, Sys.setActive, hc]

theorem flushCycleF_danglingWrite (s : Sys) :
    (flushCycleF s).danglingWrite = s.danglingWrite := by
  cases hc : s.curr <;> simp [flushCycleF, Sys.setActive, hc]

theorem flushLastS_active (s : Sys) :
    (flushLastS s).active = s.active ++ flush_last_log s.dedup :=
  appendActive_active s _

theorem flushLastS_passive (s : Sys) : (flushLastS s).passive = s.passive :=
  appendActive_passive s _

theorem flushLastS_run (s : Sys) : (flushLastS s).run = s.run :=
  appendActive_run s _

theorem flushLastS_fileOpen (s : Sys) : (flushLastS s).fileOpen = s.fileOpen :=
  appendActive_fileOpen s _

theorem flushLastS_fileContent (s : Sys) :
    (flushLastS s).fileContent = s.fileContent :=
  appendActive_fileContent s _

theorem flushLastS_dedup (s : Sys) : (flushLastS s).dedup = s.dedup :=
  appendActive_dedup s _

theorem flushLastS_freed (s : Sys) : (flushLastS s).freed = s.freed :=
  appendActive_freed s _

theorem flushLastS_danglingWrite (s : Sys) :
    (flushLastS s).danglingWrite
      = (s.danglingWrite || (s.freed && !(flush_last_log s.dedup).isEmpty)) :=
  appendActive_danglingWrite s _

/-- Helper: a state with both the active and the passive buffer empty has
both concrete buffers empty. -/
theorem bufs_eq_nil (s : Sys) (ha : s.active = []) (hp : s.passive = []) :
    s.bufA = [] ∧ s.bufB = [] := by
  cases hc : s.curr <;> simp [Sys.active, Sys.passive, hc] at ha hp
    <;> exact ⟨by assumption, by assumption⟩

/-- The central reachability invariant: the passive buffer is always
empty (the flusher drains the buffer it swapped out before swapping
again), the active buffer never exceeds the configured capacity, and
while the worker runs the buffer data segments are live and no dangling
write has occurred (only the worker's exit path frees them). -/
theorem sys_inv {cap : Nat} {s : Sys} (h : Reach cap s) :
    s.passive = [] ∧ s.active.length ≤ cap
    ∧ s.freed = false ∧ s.danglingWrite = false := by
  induction h with
  | refl => exact ⟨rfl, by simp [initSys, Sys.active], rfl, rfl⟩
  | step hr hs ih =>
    cases hs with
    | add msg plen hroom =>
      refine ⟨by rw [addStep_passive]; exact ih.1, ?_,
        by rw [addStep_freed]; exact ih.2.2.1,
        by rw [addStep_danglingWrite, ih.2.2.1, ih.2.2.2]; rfl⟩
      rw [addStep_active]
      rcases hroom with hnil | hlt
      · rw [hnil, List.append_nil]; exact ih.2.1
      · rw [List.length_append]; omega
    | flush hrun hopen =>
      refine ⟨flushCycleF_passive _, ?_,
        by rw [flushCycleF_freed]; exact ih.2.2.1,
        by rw [flushCycleF_danglingWrite]; exact ih.2.2.2⟩
      rw [flushCycleF_active, ih.1]
      simp

/-- C2: in every reachable state both log buffers hold at most `cap`
bytes; an append whose size reaches or exceeds the remaining space makes
`do_add_log_entry` block the caller (`none`) instead of truncating or
growing; a completed append holds exactly the old bytes followed by the
whole record, still below capacity; and after a flusher swap-and-drain
cycle the active buffer is empty (space has been freed). -/
theorem C2_capacity_backpressure (cap : Nat) (s : Sys) (h : Reach cap s) :
    (s.bufA.length ≤ cap ∧ s.bufB.length ≤ cap)
    ∧ (∀ buf msg : List Char, cap ≤ buf.length + msg.length →
        do_add_log_entry cap buf msg = none)
    ∧ (∀ buf msg out : List Char, do_add_log_entry cap buf msg = some out →
        out = buf ++ msg ∧ out.length < cap)
    ∧ (flushCycleF s).active = [] := by
  obtain ⟨hp, ha, -, -⟩ := sys_inv h
  refine ⟨?_, ?_, ?_, ?_⟩
  · cases hc : s.curr <;> simp [Sys.active, Sys.passive, hc] at hp ha
    · exact ⟨ha, by simp [hp]⟩
    · exact ⟨by simp [hp], ha⟩
  · intro buf msg hge
    unfold do_add_log_entry
    rw [if_pos hge]
  · intro buf msg out hsome
    unfold do_add_log_entry at hsome
    by_cases hge : cap ≤ buf.length + msg.length
    · rw [if_pos hge] at hsome; cases hsome
    · rw [if_neg hge] at hsome
      obtain rfl : buf ++ msg = out := Option.some.injEq _ _ ▸ hsome
      exact ⟨rfl, by rw [List.length_append]; omega⟩
  · rw [flushCycleF_active]; exact hp

theorem C2_witness :
    ((initSys.bufA.length ≤ 3 ∧ initSys.bufB.length ≤ 3)
      ∧ (∀ buf msg : List Char, 3 ≤ buf.length + msg.length →
          do_add_log_entry 3 buf msg = none)
      ∧ (∀ buf msg out : List Char, do_add_log_entry 3 buf msg = some out →
          out = buf ++ msg ∧ out.length < 3)
      ∧ (flushCycleF initSys).active = []) :=
  C2_capacity_backpressure 3 initSys Reach.refl

/-- Helper: the drain loop is a no-op from a state whose active buffer is
already empty. -/
theorem drainLoop_nil (t : Sys) (h : t.active = []) : ∀ k, drainLoop k t = t
  | 0 => rfl
  | k + 1 => by simp [drainLoop, h]

/-- Helper: from any state whose passive buffer is empty (the invariant at
the top of the worker's drain loop), two iterations fully drain both
buffers, the file receives exactly the active bytes, and more fuel does
not change the result — justifying the bounded embedding of the source's
`while` loop. -/
theorem drainLoop_two (s : Sys) (hp : s.passive = []) :
    (drainLoop 2 s).active = [] ∧ (drainLoop 2 s).passive = []
    ∧ (drainLoop 2 s).fileContent = s.fileContent ++ s.active
    ∧ (drainLoop 2 s).run = s.run ∧ (drainLoop 2 s).fileOpen = s.fileOpen
    ∧ (drainLoop 2 s).dedup = s.dedup
    ∧ (drainLoop 2 s).freed = s.freed
    ∧ (drainLoop 2 s).danglingWrite = s.danglingWrite
    ∧ ∀ k, drainLoop (k + 2) s = drainLoop 2 s := by
  by_cases hact : s.active = []
  · have h2 : drainLoop 2 s = s := drainLoop_nil s hact 2
    rw [h2]
    exact ⟨hact, hp, by simp [hact], rfl, rfl, rfl, rfl, rfl,
      fun k => drainLoop_nil s hact (k + 2)⟩
  · have hfa : (flushCycleF s).active = [] := by rw [flushCycleF_active]; exact hp
    have h2 : drainLoop 2 s = flushCycleF s := by
      show (if s.active = [] then s else drainLoop 1 (flushCycleF s)) = flushCycleF s
      rw [if_neg hact]
      exact drainLoop_nil _ hfa 1
    rw [h2]
    refine ⟨hfa, flushCycleF_passive s, flushCycleF_fileContent s,
      flushCycleF_run s, flushCycleF_fileOpen s, flushCycleF_dedup s,
      flushCycleF_freed s, flushCycleF_danglingWrite s, fun k => ?_⟩
    show (if s.active = [] then s else drainLoop (k + 1) (flushCycleF s)) = flushCycleF s
    rw [if_neg hact]
    exact drainLoop_nil _ hfa (k + 1)

theorem runUpdate_active (t : Sys) (b : Bool) :
    ({ t with run := b } : Sys).active = t.active := rfl

theorem runUpdate_passive (t : Sys) (b : Bool) :
    ({ t with run := b } : Sys).passive = t.passive := rfl

theorem closeUpdate_active (t : Sys) :
    ({ t with fileOpen := false, freed := true } : Sys).active = t.active := rfl

theorem closeUpdate_passive (t : Sys) :
    ({ t with fileOpen := false, freed := true } : Sys).passive = t.passive := rfl

/-- Helper: the summary line formatted by `flush_last_log` is never
empty. -/
theorem summaryLine_isEmpty (c : Nat) : (summaryLine c).isEmpty = false := rfl

/-- Helper: a second `logger_shutdown` call on a state whose worker is
already stopped does not drain, write to the file, close or join: only
the pending summary is appended to the (never again drained) active
buffer — through the freed data pointer when the buffers have been
freed, which the `danglingWrite` equation records. -/
theorem logger_shutdown_stopped (r : Sys) (hr : r.run = false) :
    (logger_shutdown r).fileContent = r.fileContent
    ∧ (logger_shutdown r).fileOpen = r.fileOpen
    ∧ (logger_shutdown r).run = false
    ∧ (logger_shutdown r).danglingWrite
        = (r.danglingWrite || (r.freed && !(flush_last_log r.dedup).isEmpty)) := by
  unfold logger_shutdown
  rw [if_neg (by rw [flushLastS_run, hr]; simp)]
  exact ⟨flushLastS_fileContent r, flushLastS_fileOpen r, rfl,
    flushLastS_danglingWrite r⟩

/-- C3 (amended): from any reachable state with the worker running and
the file open, `logger_shutdown` appends the pending dedup summary (when
the repeat count exceeds 1) through still-live buffers, drains every byte
of both buffers to the file in order, stops the worker and closes the
file — and the joined worker frees both buffers' data segments.
Afterwards no transition can change the file contents, and a second
`logger_shutdown` call neither writes to the file nor recloses it nor
joins again; but it is free of undefined behavior only when no summary is
pending (`repeat_count ≤ 1`, which `flush_last_log` never resets): with
`repeat_count > 1` the second call appends the summary through the freed
buffer data pointer — a use-after-free, recorded in `danglingWrite` (see
the counterexample). -/
theorem C3_shutdown_drains (cap : Nat) (s : Sys) (h : Reach cap s)
    (hrun : s.run = true) (hopen : s.fileOpen = true) :
    (logger_shutdown s).fileContent
        = s.fileContent ++ (s.active ++ flush_last_log s.dedup)
    ∧ (logger_shutdown s).bufA = [] ∧ (logger_shutdown s).bufB = []
    ∧ (logger_shutdown s).run = false ∧ (logger_shutdown s).fileOpen = false
    ∧ (logger_shutdown s).danglingWrite = false
    ∧ (logger_shutdown s).freed = true
    ∧ (∀ s', Step cap (logger_shutdown s) s' →
        s'.fileContent = (logger_shutdown s).fileContent)
    ∧ (logger_shutdown (logger_shutdown s)).fileContent
        = (logger_shutdown s).fileContent
    ∧ (logger_shutdown (logger_shutdown s)).fileOpen = false
    ∧ (logger_shutdown (logger_shutdown s)).run = false
    ∧ (s.dedup.count ≤ 1 →
        (logger_shutdown (logger_shutdown s)).danglingWrite = false)
    ∧ (1 < s.dedup.count →
        (logger_shutdown (logger_shutdown s)).danglingWrite = true) := by
  obtain ⟨hp, -, hfr, hdg⟩ := sys_inv h
  have hp2 : ({ flushLastS s with run := false } : Sys).passive = [] := by
    rw [runUpdate_passive, flushLastS_passive]; exact hp
  have hshut : logger_shutdown s
      = { drainLoop 2 { flushLastS s with run := false } with
            fileOpen := false, freed := true } := by
    unfold logger_shutdown workerExit
    rw [if_pos (by rw [flushLastS_run]; exact hrun)]
    rw [if_pos (show ({ flushLastS s with run := false } : Sys).fileOpen = true by
      show (flushLastS s).fileOpen = true
      rw [flushLastS_fileOpen]; exact hopen)]
  obtain ⟨d1, d2, d3, d4, d5, d6, d7, d8, -⟩ := drainLoop_two _ hp2
  have hfc : (logger_shutdown s).fileContent
      = s.fileContent ++ (s.active ++ flush_last_log s.dedup) := by
    rw [hshut]
    show (drainLoop 2 { flushLastS s with run := false }).fileContent = _
    rw [d3]
    show (flushLastS s).fileContent ++ (flushLastS s).active = _
    rw [flushLastS_fileContent, flushLastS_active]
  have hact : (logger_shutdown s).active = [] := by
    rw [hshut, closeUpdate_active]; exact d1
  have hpas : (logger_shutdown s).passive = [] := by
    rw [hshut, closeUpdate_passive]; exact d2
  have hrun' : (logger_shutdown s).run = false := by
    rw [hshut]
    show (drainLoop 2 { flushLastS s with run := false }).run = false
    rw [d4]
  have hopen' : (logger_shutdown s).fileOpen = false := by rw [hshut]
  have hdangl : (logger_shutdown s).danglingWrite = false := by
    rw [hshut]
    show (drainLoop 2 { flushLastS s with run := false }).danglingWrite = false
    rw [d8]
    show (flushLastS s).danglingWrite = false
    rw [flushLastS_danglingWrite, hdg, hfr]
    rfl
  have hfreed' : (logger_shutdown s).freed = true := by rw [hshut]
  have hdedup' : (logger_shutdown s).dedup = s.dedup := by
    rw [hshut]
    show (drainLoop 2 { flushLastS s with run := false }).dedup = s.dedup
    rw [d6]
    show (flushLastS s).dedup = s.dedup
    exact flushLastS_dedup s
  obtain ⟨hbA, hbB⟩ := bufs_eq_nil _ hact hpas
  obtain ⟨g1, g2, g3, g4⟩ := logger_shutdown_stopped _ hrun'
  refine ⟨hfc, hbA, hbB, hrun', hopen', hdangl, hfreed', ?_, g1,
    by rw [g2]; exact hopen', g3, ?_, ?_⟩
  · intro s' hs'
    cases hs' with
    | add msg plen hroom => exact addStep_fileContent _ _ _
    | flush hrun2 hopen2 => rw [hrun'] at hrun2; cases hrun2
  · intro hcnt
    have hfl : flush_last_log s.dedup = [] := by
      unfold flush_last_log; rw [if_neg (by omega)]
    rw [g4, hdangl, hfreed', hdedup', hfl]
    rfl
  · intro hcnt
    have hfl : flush_last_log s.dedup = summaryLine s.dedup.count := by
      unfold flush_last_log; rw [if_pos hcnt]
    rw [g4, hdangl, hfreed', hdedup', hfl, summaryLine_isEmpty]
    rfl

/-- The logger state after three producer calls logging the same record
`"T: x\n"` (prefix length 3): the second and third occurrences only bump
the repeat count, so `lastlog.count = 2` with the summary still
pending. -/
def c3Run : Sys :=
  addStep (addStep (addStep initSys ("T: x\n".data) 3) ("T: x\n".data) 3)
    ("T: x\n".data) 3

/-- C3 counterexample: the claim states that calling shutdown when the
worker is already stopped is safe.  Log the same record three times
(reachable; `lastlog.count = 2`) and shut down: the worker drains, closes
the file and frees both buffers' data segments (lines 403-405), while
`flush_last_log` never resets `lastlog.count`.  A second
`logger_shutdown` call then runs `flush_last_log` with `count > 1`, whose
`do_add_log_entry` executes `memcpy(buffers[currbuffer].data + ..., ...)`
(line 158) through the freed data pointer — a use-after-free, not a safe
call. -/
theorem C3_counterexample :
    Reach 2048 c3Run
    ∧ 1 < c3Run.dedup.count
    ∧ (logger_shutdown c3Run).run = false
    ∧ (logger_shutdown c3Run).freed = true
    ∧ (logger_shutdown c3Run).danglingWrite = false
    ∧ (logger_shutdown (logger_shutdown c3Run)).danglingWrite = true := by
  refine ⟨?_, by decide, by decide, by decide, by decide, by decide⟩
  exact Reach.step (Reach.step (Reach.step Reach.refl
      (Step.add initSys ("T: x\n".data) 3 (Or.inr (by decide))))
      (Step.add _ ("T: x\n".data) 3 (Or.inl (by decide))))
    (Step.add _ ("T: x\n".data) 3 (Or.inl (by decide)))

theorem C3_witness :
    (initSys.run = true ∧ initSys.fileOpen = true ∧ initSys.dedup.count ≤ 1)
    ∧ (logger_shutdown initSys).fileContent
        = initSys.fileContent ++ (initSys.active ++ flush_last_log initSys.dedup)
    ∧ (logger_shutdown initSys).run = false
    ∧ (logger_shutdown initSys).fileOpen = false
    ∧ (logger_shutdown (logger_shutdown initSys)).danglingWrite = false := by
  obtain ⟨h1, _, _, h4, h5, _, _, _, _, _, _, h12, _⟩ :=
    C3_shutdown_drains 4 initSys Reach.refl rfl rfl
  exact ⟨⟨rfl, rfl, by decide⟩, h1, h4, h5, h12 (by decide)⟩

end FileLogger
